import Mathlib

/-!
Shallow embedding of `src/get_RSS.py` (paper-feed RSS aggregator).

Python strings are modelled as `List Char`, timestamps (`datetime`) as `Nat`
(the datetime order is total, so any linearly ordered carrier is faithful for
sorting claims), Python dict entries as Lean structures.  External effects
(the network / `feedparser`) are passed in as explicit parameters, so every
function is a pure Lean function mirroring the Python control flow.
-/

namespace GetRSS

/-- Python ASCII whitespace, as recognised by `str.strip()` on ASCII text. -/
def isPySpace (c : Char) : Bool :=
  c == ' ' || c == '\t' || c == '\n' || c == '\r' || c == '\x0b' || c == '\x0c'

/-- `str.strip()`: drop whitespace from both ends. -/
def pyStrip (s : List Char) : List Char :=
  ((s.dropWhile isPySpace).reverse.dropWhile isPySpace).reverse

/-- `str.lower()` (per-character, as on ASCII text). -/
def pyLower (s : List Char) : List Char :=
  s.map Char.toLower

/-- Python substring test `needle in hay`. -/
def isSub (needle : List Char) : List Char → Bool
  | [] => needle.isEmpty
  | c :: rest => needle.isPrefixOf (c :: rest) || isSub needle rest

/-- Worker for `pySplit`, structurally recursive on a fuel argument.  Every
recursive call consumes at least one input character, so with fuel equal to
the input length the exhaustion branch is unreachable. -/
def pySplitF (sep : List Char) : Nat → List Char → List (List Char)
  | _, [] => [[]]
  | 0, s => [s]
  | fuel + 1, c :: rest =>
    if !sep.isEmpty && sep.isPrefixOf (c :: rest) then
      [] :: pySplitF sep fuel ((c :: rest).drop sep.length)
    else
      match pySplitF sep fuel rest with
      | [] => [[c]]
      | g :: gs => (c :: g) :: gs

/-- Python `s.split(sep)` for a non-empty separator: split on non-overlapping
occurrences, left to right; an empty-separator call never happens in the
source (it splits on the literal string AND). -/
def pySplit (sep : List Char) (s : List Char) : List (List Char) :=
  pySplitF sep s.length s

/-- Worker for `removeAll`, structurally recursive on fuel exactly like
`pySplitF`. -/
def removeAllF (pat : List Char) : Nat → List Char → List Char
  | _, [] => []
  | 0, s => s
  | fuel + 1, c :: rest =>
    if !pat.isEmpty && pat.isPrefixOf (c :: rest) then
      removeAllF pat fuel ((c :: rest).drop pat.length)
    else
      c :: removeAllF pat fuel rest

/-- Python `s.replace(pat, "")` for a non-empty `pat`: remove every
non-overlapping occurrence, left to right. -/
def removeAll (pat : List Char) (s : List Char) : List Char :=
  removeAllF pat s.length s

/-- One feed item in the uniform in-memory shape built by `parse_rss` /
`get_existing_items` (a Python dict in the source; `is_old` defaults to
`False` via `item.get('is_old', False)`). -/
structure Entry where
  title : List Char
  link : List Char
  pub_date : Nat
  summary : List Char
  journal : List Char
  id : List Char
  is_old : Bool := false
deriving DecidableEq, Repr

/-- The static journal-abbreviation table `JOURNAL_ABBR` (a dict with distinct
keys in the source; modelled as an association list looked up with `find?`). -/
def JOURNAL_ABBR : List (List Char × List Char) := [
  ("ScienceDirect Publication: Medical Image Analysis".data, "MedIA".data),
  ("ScienceDirect Publication: Pattern Recognition".data, "PR".data),
  ("ScienceDirect Publication: Knowledge-Based Systems".data, "KBS".data),
  ("ScienceDirect Publication: Neural Networks".data, "NN".data),
  ("ScienceDirect Publication: Neurocomputing".data, "NC".data),
  ("ScienceDirect Publication: Computers in Biology and Medicine".data, "CBM".data),
  ("ScienceDirect Publication: Biomedical Signal Processing and Control".data, "BSPC".data),
  ("ScienceDirect Publication: Artificial Intelligence in Medicine".data, "AIM".data),
  ("ScienceDirect Publication: Engineering Applications of Artificial Intelligence".data, "EAAI".data),
  ("ScienceDirect Publication: Expert Systems with Applications".data, "ESWA".data),
  ("ScienceDirect Publication: Information Fusion".data, "IF".data),
  ("ScienceDirect Publication: NeuroImage".data, "NI".data),
  ("IEEE Transactions on Medical Imaging".data, "TMI".data),
  ("IEEE Transactions on Pattern Analysis and Machine Intelligence".data, "TPAMI".data),
  ("IEEE Transactions on Image Processing".data, "TIP".data),
  ("IEEE Transactions on Biomedical Engineering".data, "TBME".data),
  ("IEEE Journal of Biomedical and Health Informatics".data, "JBHI".data),
  ("Wiley: Medical Physics: Table of Contents".data, "MP".data),
  ("cs.CV updates on arXiv.org".data, "arXiv-CV".data),
  ("eess.IV updates on arXiv.org".data, "arXiv-IV".data),
  ("cs.LG updates on arXiv.org".data, "arXiv-ML".data)]

/-- Dict lookup `JOURNAL_ABBR[name]` guarded by `name in JOURNAL_ABBR`. -/
def lookupAbbr (name : List Char) : Option (List Char) :=
  (JOURNAL_ABBR.find? (fun p => p.1 == name)).map (fun p => p.2)

/-- `get_journal_abbr` (src/get_RSS.py lines 42-50): remove every occurrence
of the TOC suffix, try the table, and only on a miss remove the ScienceDirect
boilerplate and truncate to 15 characters. -/
def get_journal_abbr (journal_name : List Char) : List Char :=
  let cleaned := removeAll (" - new TOC".data) journal_name
  match lookupAbbr cleaned with
  | some abbr => abbr
  | none =>
    let short := removeAll ("ScienceDirect Publication: ".data) cleaned
    if 15 < short.length then short.take 15 else short

/-- A character in the XML-1.0-illegal control ranges 0-8, 11, 12, 14-31
(the regex character class in the source). -/
def isIllegalXmlChar (c : Char) : Bool :=
  c.toNat ≤ 8 || c.toNat == 11 || c.toNat == 12 || (14 ≤ c.toNat && c.toNat ≤ 31)

/-- `remove_illegal_xml_chars` (lines 70-77): empty input short-circuits to
the empty string, otherwise `re.sub` deletes every illegal character. -/
def remove_illegal_xml_chars (text : List Char) : List Char :=
  if text.isEmpty then []
  else text.filter (fun c => !isIllegalXmlChar c)

/-- `line.startswith('#')`. -/
def startsWithHash (line : List Char) : Bool :=
  match line with
  | [] => false
  | c :: _ => c == '#'

/-- The env-variable branch of `load_config`: split on newlines when any is
present, otherwise on semicolons; keep the stripped lines that are non-empty
(no comment filtering here). -/
def splitEnvContent (content : List Char) : List (List Char) :=
  if content.contains '\n' then
    ((pySplit ['\n'] content).map pyStrip).filter (fun l => !l.isEmpty)
  else
    ((pySplit [';'] content).map pyStrip).filter (fun l => !l.isEmpty)

/-- The local-file branch of `load_config`: keep a line when its stripped form
is non-empty and the raw line does not start with a hash, returning the
stripped forms.  File iteration is modelled as splitting the content on
newlines; the trailing newline a Python file line carries is invisible to
both checks and is removed by `strip` anyway. -/
def loadFromFile : Option (List Char) → List (List Char)
  | none => []
  | some fileContent =>
    ((pySplit ['\n'] fileContent).filter
      (fun line => !(pyStrip line).isEmpty && !startsWithHash line)).map pyStrip

/-- `load_config` (lines 52-67).  `envContent = none` models an unset
environment variable, `some []` a set-but-empty one (falsy in Python, so it
falls through to the file); `fileContent = none` models a missing file. -/
def load_config (envContent : Option (List Char)) (fileContent : Option (List Char)) :
    List (List Char) :=
  match envContent with
  | some content =>
    if content.isEmpty then loadFromFile fileContent
    else splitEnvContent content
  | none => loadFromFile fileContent

/-- One query clause: every AND-delimited keyword, stripped and lowercased,
must occur in the search text (the inner flag-and-break loop of
`match_entry`). -/
def queryMatches (text : List Char) (query : List Char) : Bool :=
  ((pySplit ("AND".data) query).map (fun k => pyLower (pyStrip k))).all
    (fun k => isSub k text)

/-- `match_entry` (lines 139-150): search text is the lowercased
`title + " " + summary`; the outer loop returns true on the first matching
query and false when none matches. -/
def match_entry (entry : Entry) (queries : List (List Char)) : Bool :=
  let text_to_search := pyLower (entry.title ++ [' '] ++ entry.summary)
  queries.any (fun q => queryMatches text_to_search q)

/-- `MAX_ITEMS` configuration constant. -/
def MAX_ITEMS : Nat := 1000

/-- `items.sort(key=lambda x: x['pub_date'], reverse=True)`: Python sort is
stable; with `reverse=True` entries of equal key keep input order, which is
exactly a stable merge sort under the descending comparison. -/
def pySortDesc (items : List Entry) : List Entry :=
  items.mergeSort (fun a b => b.pub_date ≤ a.pub_date)

/-- The ordering part of `generate_rss_xml` (lines 156-157): sort descending
by publication time, then truncate to the first `maxItems` entries
(`MAX_ITEMS` at the call site). -/
def sortAndTruncate (maxItems : Nat) (items : List Entry) : List Entry :=
  (pySortDesc items).take maxItems

/-- The per-item display title of `generate_rss_xml` (lines 159-165): fresh
entries get the `[abbr] ` tag, historical entries do not; both then pass
through `remove_illegal_xml_chars`. -/
def displayTitle (item : Entry) : List Char :=
  let title :=
    if item.is_old then item.title
    else ['['] ++ get_journal_abbr item.journal ++ [']', ' '] ++ item.title
  remove_illegal_xml_chars title

/-- One raw feed item as surfaced by the external `feedparser` library:
every field may be absent (`entry.get` fallbacks in the source). -/
structure RawEntry where
  title : Option (List Char) := none
  link : Option (List Char) := none
  published_parsed : Option Nat := none
  updated_parsed : Option Nat := none
  summary : Option (List Char) := none
  description : Option (List Char) := none
  author : Option (List Char) := none
  id : Option (List Char) := none
deriving DecidableEq, Repr

/-- A whole `feedparser.parse` result: feed-level title, the bozo
malformed-input flag, and whatever entries the parser recovered. -/
structure ParsedFeed where
  feedTitle : Option (List Char) := none
  bozo : Bool := false
  entries : List RawEntry := []
deriving DecidableEq, Repr

/-- `convert_struct_time_to_datetime` (lines 79-82): a missing timestamp
falls back to the current processing time. -/
def convert_struct_time_to_datetime (struct_time : Option Nat) (now : Nat) : Nat :=
  match struct_time with
  | none => now
  | some t => t

/-- The per-entry normalisation inside `parse_rss` (lines 92-103). -/
def remoteEntryOf (journal_title : List Char) (now : Nat) (entry : RawEntry) : Entry :=
  { title := entry.title.getD []
    link := entry.link.getD []
    pub_date := convert_struct_time_to_datetime
      (entry.published_parsed.orElse (fun _ => entry.updated_parsed)) now
    summary := entry.summary.getD (entry.description.getD [])
    journal := journal_title
    id := entry.id.getD (entry.link.getD [])
    is_old := false }

/-- The retry loop of `parse_rss`: `attempt i` is the outcome of the i-th
`feedparser.parse` try (`Except.error` models any exception caught by the
`except` clause).  Returns the produced entry list together with the list of
`time.sleep` durations performed, so the waiting behaviour is observable. -/
def parse_rss_go (attempt : Nat → Except Unit ParsedFeed) (now : Nat) :
    Nat → Nat → List Entry × List Nat
  | _, 0 => ([], [])
  | i, Nat.succ fuel =>
    match attempt i with
    | Except.ok feed =>
      (feed.entries.map (remoteEntryOf (feed.feedTitle.getD ("Unknown Journal".data)) now), [])
    | Except.error _ =>
      let rest := parse_rss_go attempt now (i + 1) fuel
      (rest.1, 2 :: rest.2)

/-- `parse_rss` (lines 84-108) with its default of 3 retries. -/
def parse_rss (attempt : Nat → Except Unit ParsedFeed) (now : Nat)
    (retries : Nat := 3) : List Entry × List Nat :=
  parse_rss_go attempt now 0 retries

/-- `get_existing_items` (lines 110-137).  `fileExists = false` is the
missing-file early return; `parsed = Except.error ()` is the `except` branch
returning `[]`.  On a successful parse the code maps every recovered entry
even when `feed.bozo = 1` — that flag only triggers a printed warning, so the
model ignores it in the value. -/
def get_existing_items (fileExists : Bool) (parsed : Except Unit ParsedFeed)
    (now : Nat) : List Entry :=
  if !fileExists then []
  else
    match parsed with
    | Except.error _ => []
    | Except.ok feed =>
      feed.entries.map (fun entry =>
        { title := entry.title.getD []
          link := entry.link.getD []
          pub_date := convert_struct_time_to_datetime entry.published_parsed now
          summary := entry.summary.getD []
          journal := entry.author.getD []
          id := entry.id.getD (entry.link.getD [])
          is_old := true })

/-- One iteration of the inner loop of `main` (lines 209-216): skip an entry
whose id is already seen, otherwise keep it iff it matches a query.  The
Python `set` of seen ids is modelled as a list used only through
membership. -/
def mergeStep (queries : List (List Char)) (st : List Entry × List (List Char))
    (entry : Entry) : List Entry × List (List Char) :=
  if st.2.contains entry.id then st
  else if match_entry entry queries then (st.1 ++ [entry], entry.id :: st.2)
  else st

/-- The merge phase of `main` (lines 200-216): seed the seen-id set and the
accumulator from the existing entries, then scan every fetched source's
entries in order. -/
def main_merge (existing : List Entry) (fetched : List (List Entry))
    (queries : List (List Char)) : List Entry :=
  (fetched.foldl (fun st entries => entries.foldl (mergeStep queries) st)
    (existing, existing.map (fun e => e.id))).1

/-- A compact entry constructor for concrete test inputs. -/
def mkE (title id : List Char) (pub : Nat) (isOld : Bool) : Entry :=
  { title := title, link := [], pub_date := pub, summary := [], journal := [],
    id := id, is_old := isOld }

/-! ### Helper lemmas -/

lemma filter_self_idem (p : Char → Bool) (l : List Char) :
    (l.filter p).filter p = l.filter p := by
  induction l with
  | nil => rfl
  | cons c t ih => by_cases h : p c <;> simp [List.filter_cons, h, ih]

lemma isSub_nil (hay : List Char) : isSub [] hay = true := by
  cases hay <;> simp [isSub, List.isPrefixOf]

/-- The outer OR / inner AND loops of `match_entry`, as one characterisation. -/
lemma match_entry_eq_true_iff (entry : Entry) (queries : List (List Char)) :
    match_entry entry queries = true ↔
      ∃ q ∈ queries,
        ∀ k ∈ pySplit ("AND".data) q,
          isSub (pyLower (pyStrip k))
            (pyLower (entry.title ++ [' '] ++ entry.summary)) = true := by
  unfold match_entry queryMatches
  simp [List.any_eq_true, List.all_eq_true]

/-! ### C8: idempotence of illegal-character stripping -/

/-- C8: `remove_illegal_xml_chars` is idempotent — applying it twice yields
the same string as applying it once, for every input string. -/
theorem remove_illegal_xml_chars_idem (text : List Char) :
    remove_illegal_xml_chars (remove_illegal_xml_chars text) =
      remove_illegal_xml_chars text := by
  unfold remove_illegal_xml_chars
  by_cases h : text.isEmpty
  · simp [h]
  · simp only [h, Bool.false_eq_true, if_false]
    by_cases h2 : (text.filter fun c => !isIllegalXmlChar c).isEmpty
    · simp [h2, List.isEmpty_iff.mp h2]
    · simp [h2, filter_self_idem]

/-! ### C2: query matcher correctness -/

/-- C2: `match_entry` returns true iff some query in the list has all of its
AND-delimited keywords (stripped, lowercased) occurring as substrings of the
lowercased `title + " " + summary`; the empty query list never matches. -/
theorem match_entry_correct (entry : Entry) (queries : List (List Char)) :
    (match_entry entry queries = true ↔
      ∃ q ∈ queries,
        ∀ k ∈ pySplit ("AND".data) q,
          isSub (pyLower (pyStrip k))
            (pyLower (entry.title ++ [' '] ++ entry.summary)) = true)
    ∧ match_entry entry [] = false :=
  ⟨match_entry_eq_true_iff entry queries, rfl⟩

/-! ### C9: all-blank queries match everything -/

/-- C9: a query all of whose AND-delimited keywords strip to the empty string
(such as the literal query AND, or a query of only whitespace) makes
`match_entry` return true for every entry, because the empty keyword is a
substring of every search text. -/
theorem match_entry_blank_query (entry : Entry) (queries : List (List Char))
    (q : List Char) (hq : q ∈ queries)
    (hblank : ∀ k ∈ pySplit ("AND".data) q, pyStrip k = []) :
    match_entry entry queries = true :=
  (match_entry_eq_true_iff entry queries).mpr
    ⟨q, hq, fun k hk => by rw [hblank k hk]; exact isSub_nil _⟩

/-- Concrete instance of C9: the single-character query list containing just
the word AND matches an arbitrary entry. -/
theorem match_entry_blank_query_witness :
    match_entry (mkE ("Some title".data) ("X".data) 0 false) ["AND".data] = true :=
  match_entry_blank_query _ _ ("AND".data) (by decide) (by decide)

/-! ### C10: the env-variable config branch does not filter comment lines -/

/-- C10: when the environment variable is set and non-empty, every item of
the newline- (or, failing that, semicolon-) split content whose stripped form
is non-empty ends up in the returned config list — including lines starting
with a hash — and the local file is never consulted; the concrete conjunct
shows a hash line surviving verbatim. -/
theorem load_config_env_keeps_comment_lines (c : List Char)
    (f : Option (List Char)) (l : List Char) (hne : c ≠ [])
    (hl : l ∈ (if c.contains '\n' then pySplit ['\n'] c else pySplit [';'] c))
    (hstrip : pyStrip l ≠ []) :
    pyStrip l ∈ load_config (some c) f
    ∧ load_config (some ("#a\nfoo".data)) f = ["#a".data, "foo".data] := by
  refine ⟨?_, rfl⟩
  have hcne : c.isEmpty = false := by
    cases c with
    | nil => exact absurd rfl hne
    | cons x t => rfl
  unfold load_config splitEnvContent
  simp only [hcne, Bool.false_eq_true, if_false]
  by_cases hnl : c.contains '\n'
  · simp only [hnl, if_true] at hl ⊢
    exact List.mem_filter.mpr ⟨List.mem_map_of_mem _ hl, by simp [hstrip]⟩
  · simp only [hnl, Bool.false_eq_true, if_false] at hl ⊢
    exact List.mem_filter.mpr ⟨List.mem_map_of_mem _ hl, by simp [hstrip]⟩

/-- Concrete instance of C10: a hash-comment line delivered through the
environment variable is kept in the config list. -/
theorem load_config_env_keeps_comment_lines_witness :
    pyStrip ("#a".data) ∈ load_config (some ("#a\nfoo".data)) none :=
  (load_config_env_keeps_comment_lines ("#a\nfoo".data) none ("#a".data)
    (by decide) (by decide) (by decide)).1

/-! ### C1: identity uniqueness after the merge -/

/-- C1 (as stated) fails: the merge never deduplicates the existing entries
against each other, so an existing list that already carries two entries with
the same identity reaches the output unchanged. -/
theorem main_merge_dedup_counterexample :
    ¬ List.Pairwise (fun a b => a.id ≠ b.id)
        (main_merge
          [mkE ("a".data) ("A".data) 0 true, mkE ("b".data) ("A".data) 0 true]
          [] []) := by
  decide

/-- The loop invariant of the merge phase: the accumulated entries have
pairwise distinct identities, each of which is already in the seen set. -/
def SeenInv (st : List Entry × List (List Char)) : Prop :=
  st.1.Pairwise (fun a b => a.id ≠ b.id) ∧ ∀ e ∈ st.1, e.id ∈ st.2

lemma mergeStep_seenInv (queries : List (List Char))
    (st : List Entry × List (List Char)) (e : Entry) (h : SeenInv st) :
    SeenInv (mergeStep queries st e) := by
  unfold mergeStep
  by_cases h1 : st.2.contains e.id
  · simp only [h1, if_true]; exact h
  · by_cases h2 : match_entry e queries
    · simp only [h1, Bool.false_eq_true, if_false, h2, if_true]
      have hnot : e.id ∉ st.2 := by
        intro hmem
        have hc : st.2.contains e.id = true := List.elem_iff.mpr hmem
        exact h1 hc
      constructor
      · refine List.pairwise_append.mpr ⟨h.1, List.pairwise_singleton _ _, ?_⟩
        intro x hx y hy
        have hy2 : y = e := by simpa using hy
        subst hy2
        intro hxy
        exact hnot (hxy ▸ h.2 x hx)
      · intro x hx
        rcases List.mem_append.mp hx with hx1 | hx2
        · exact List.mem_cons_of_mem _ (h.2 x hx1)
        · have : x = e := by simpa using hx2
          subst this
          exact List.mem_cons_self _ _
    · simp only [h1, Bool.false_eq_true, if_false, h2, if_false]; exact h

lemma foldl_mergeStep_seenInv (queries : List (List Char)) (l : List Entry) :
    ∀ st, SeenInv st → SeenInv (l.foldl (mergeStep queries) st) := by
  induction l with
  | nil => exact fun st h => h
  | cons e t ih => exact fun st h => ih _ (mergeStep_seenInv queries st e h)

lemma foldl_sources_seenInv (queries : List (List Char)) (ls : List (List Entry)) :
    ∀ st, SeenInv st →
      SeenInv (ls.foldl (fun st entries => entries.foldl (mergeStep queries) st) st) := by
  induction ls with
  | nil => exact fun st h => h
  | cons l t ih => exact fun st h => ih _ (foldl_mergeStep_seenInv queries l st h)

/-- C1 amended: provided the existing entries themselves have pairwise
distinct identities (which is what a previous run's deduplicated output
provides), the merge output contains no two entries with equal identity, for
any fetched entries and queries. -/
theorem main_merge_dedup_of_existing_nodup (existing : List Entry)
    (fetched : List (List Entry)) (queries : List (List Char))
    (h : existing.Pairwise (fun a b => a.id ≠ b.id)) :
    (main_merge existing fetched queries).Pairwise (fun a b => a.id ≠ b.id) := by
  have hinv := foldl_sources_seenInv queries fetched
    (existing, existing.map (fun e => e.id))
    ⟨h, fun e he => List.mem_map_of_mem (fun e => e.id) he⟩
  exact hinv.1

/-- Concrete instance of the amended C1: one historical entry plus one fresh
matching entry with a different identity merge into a duplicate-free list. -/
theorem main_merge_dedup_witness :
    List.Pairwise (fun a b => a.id ≠ b.id)
      (main_merge [mkE ("a".data) ("A".data) 5 true]
        [[mkE ("deep learning".data) ("B".data) 4 false]] ["deep".data]) :=
  main_merge_dedup_of_existing_nodup _ _ _ (by decide)

/-! ### C3: historical titles are not re-tagged -/

/-- C3 (as stated) fails: a historical entry gets no abbreviation tag, but
its title still passes through `remove_illegal_xml_chars`, so a title
containing an XML-illegal control character is not emitted exactly. -/
theorem displayTitle_historical_counterexample :
    displayTitle (mkE ([Char.ofNat 0] ++ "A".data) ("I".data) 0 true)
      ≠ [Char.ofNat 0] ++ "A".data := by
  decide

/-- C3 amended: the serializer never prefixes a historical entry's title with
an abbreviation — the emitted title is exactly
`remove_illegal_xml_chars title`, hence equals the input title whenever the
title contains no XML-illegal control character. -/
theorem displayTitle_historical (e : Entry) (h : e.is_old = true) :
    displayTitle e = remove_illegal_xml_chars e.title
    ∧ ((∀ c ∈ e.title, isIllegalXmlChar c = false) → displayTitle e = e.title) := by
  constructor
  · simp [displayTitle, h]
  · intro hclean
    unfold displayTitle remove_illegal_xml_chars
    simp only [h, if_true]
    by_cases ht : e.title.isEmpty
    · simp [List.isEmpty_iff.mp ht]
    · simp only [ht, Bool.false_eq_true, if_false]
      exact List.filter_eq_self.mpr (fun c hc => by simp [hclean c hc])

/-- Concrete instance of the amended C3: a historical entry with a clean
title is emitted verbatim. -/
theorem displayTitle_historical_witness :
    displayTitle (mkE ("Clean title".data) ("I".data) 0 true) = "Clean title".data :=
  (displayTitle_historical (mkE ("Clean title".data) ("I".data) 0 true) rfl).2
    (by decide)

/-! ### C5: abbreviation lookup and truncation fallback -/

/-- The abbreviation procedure in the order the claim describes it: strip the
TOC suffix and the publisher boilerplate first, and only then consult the
static table. -/
def abbrClaimOrder (journal_name : List Char) : List Char :=
  let cleaned :=
    removeAll ("ScienceDirect Publication: ".data)
      (removeAll (" - new TOC".data) journal_name)
  match lookupAbbr cleaned with
  | some abbr => abbr
  | none => if 15 < cleaned.length then cleaned.take 15 else cleaned

/-- C5 (as stated) fails: the code consults the table before stripping the
publisher boilerplate (the table keys still carry it), so on a ScienceDirect
key the strip-then-lookup order of the claim returns the 15-character
truncation while the code returns the table code. -/
theorem get_journal_abbr_counterexample :
    abbrClaimOrder ("ScienceDirect Publication: Medical Image Analysis".data)
      ≠ get_journal_abbr ("ScienceDirect Publication: Medical Image Analysis".data)
    ∧ get_journal_abbr ("ScienceDirect Publication: Medical Image Analysis".data)
      = "MedIA".data := by
  decide

/-- C5 amended: `get_journal_abbr` removes the TOC suffix, consults the table
on the result, and only on a miss removes the publisher boilerplate and
truncates to 15 characters; so a label untouched by both removals and absent
from the table — such as any plain 20-character label — yields its first 15
characters. -/
theorem get_journal_abbr_fallback (name : List Char)
    (h1 : removeAll (" - new TOC".data) name = name)
    (h2 : lookupAbbr name = none)
    (h3 : removeAll ("ScienceDirect Publication: ".data) name = name)
    (h4 : name.length = 20) :
    get_journal_abbr name = name.take 15 := by
  unfold get_journal_abbr
  simp only [h1, h2, h3]
  simp [h4]

/-- Concrete instance of the amended C5: a 20-character label not in the
table is truncated to its first 15 characters. -/
theorem get_journal_abbr_fallback_witness :
    get_journal_abbr ("ABCDEFGHIJKLMNOPQRST".data) = "ABCDEFGHIJKLMNO".data := by
  have h := get_journal_abbr_fallback ("ABCDEFGHIJKLMNOPQRST".data)
    (by decide) (by decide) (by decide) (by decide)
  rw [h]
  decide

/-! ### C4: malformed existing output is not actually ignored -/

/-- A malformed existing file as `feedparser` reports it: the bozo flag is
set, yet one entry was still recovered before the malformation. -/
def bozoParsedFeed : ParsedFeed :=
  { feedTitle := some ("T".data), bozo := true,
    entries := [{ title := some ("t".data), link := some ("L".data), id := some ("I".data) }] }

/-- What `get_existing_items` makes of the entry recovered from the
malformed file. -/
def bozoRecoveredEntry : Entry :=
  { title := "t".data, link := "L".data, pub_date := 0, summary := [],
    journal := [], id := "I".data, is_old := true }

/-- C4 (code bug): the un-parseable-file branch does return `[]`, but when
`feedparser` flags a malformed file via `bozo = 1` and still recovers
entries, the code only prints the warning that claims the old items are
ignored and then returns every recovered entry anyway. -/
theorem get_existing_items_bozo_keeps_entries :
    get_existing_items true (Except.ok bozoParsedFeed) 0 = [bozoRecoveredEntry]
    ∧ get_existing_items true (Except.ok bozoParsedFeed) 0 ≠ [] := by
  decide

/-! ### C6: descending sort and truncation before serialisation -/

lemma pySortDesc_sorted (items : List Entry) :
    (pySortDesc items).Pairwise (fun x y => y.pub_date ≤ x.pub_date) := by
  unfold pySortDesc
  refine List.Pairwise.imp ?_ (List.sorted_mergeSort ?_ ?_ items)
  · exact fun h => by simpa using h
  · intro x y z hxy hyz
    simp only [decide_eq_true_eq] at *
    omega
  · intro x y
    simp only [Bool.or_eq_true, decide_eq_true_eq]
    omega

lemma pySortDesc_of_sorted {items : List Entry}
    (h : items.Pairwise (fun x y => y.pub_date ≤ x.pub_date)) :
    pySortDesc items = items := by
  unfold pySortDesc
  exact List.mergeSort_of_sorted (h.imp (fun hx => by simpa using hx))

/-- C6: the serializer emits the merged list sorted by publication time
descending and truncated to the first `maxItems` entries: the output is
always descending, its length is `min maxItems` the input length, the sort
is a permutation, three strictly descending entries truncate to the top two
in order, and two entries of equal time keep their input order. -/
theorem sortAndTruncate_spec (items : List Entry) (maxItems : Nat)
    (a b c f1 f2 : Entry)
    (hab : b.pub_date < a.pub_date) (hbc : c.pub_date < b.pub_date)
    (hf : f1.pub_date = f2.pub_date) :
    (sortAndTruncate maxItems items).Pairwise (fun x y => y.pub_date ≤ x.pub_date)
    ∧ (sortAndTruncate maxItems items).length = min maxItems items.length
    ∧ (pySortDesc items).Perm items
    ∧ sortAndTruncate 2 [a, b, c] = [a, b]
    ∧ sortAndTruncate 2 [f1, f2] = [f1, f2] := by
  refine ⟨?_, ?_, List.mergeSort_perm items _, ?_, ?_⟩
  · exact (pySortDesc_sorted items).sublist (List.take_sublist _ _)
  · unfold sortAndTruncate pySortDesc
    rw [List.length_take, (List.mergeSort_perm items _).length_eq]
  · have hs : pySortDesc [a, b, c] = [a, b, c] :=
      pySortDesc_of_sorted (by simp [List.pairwise_cons]; omega)
    unfold sortAndTruncate
    rw [hs]
    rfl
  · have hs : pySortDesc [f1, f2] = [f1, f2] :=
      pySortDesc_of_sorted (by simp [List.pairwise_cons]; omega)
    unfold sortAndTruncate
    rw [hs]
    rfl

/-- Concrete instance of C6: publication times 3 > 2 > 1 with a cap of 2
yield exactly the two most recent entries, in order. -/
theorem sortAndTruncate_spec_witness :
    sortAndTruncate 2
        [mkE ("x".data) ("X".data) 3 false, mkE ("y".data) ("Y".data) 2 false,
          mkE ("z".data) ("Z".data) 1 false] =
      [mkE ("x".data) ("X".data) 3 false, mkE ("y".data) ("Y".data) 2 false] :=
  (sortAndTruncate_spec [] 0 (mkE ("x".data) ("X".data) 3 false)
    (mkE ("y".data) ("Y".data) 2 false) (mkE ("z".data) ("Z".data) 1 false)
    (mkE ("p".data) ("P".data) 7 false) (mkE ("q".data) ("Q".data) 7 false)
    (by decide) (by decide) rfl).2.2.2.1

/-! ### C7: bounded retry with fixed delay, failure isolation -/

lemma parse_rss_go_all_fail (attempt : Nat → Except Unit ParsedFeed) (now : Nat) :
    ∀ fuel start, (∀ i, start ≤ i → i < start + fuel → attempt i = Except.error ()) →
      parse_rss_go attempt now start fuel = ([], List.replicate fuel 2) := by
  intro fuel
  induction fuel with
  | zero => intro start h; rfl
  | succ n ih =>
    intro start h
    have h0 : attempt start = Except.error () := h start (Nat.le_refl _) (by omega)
    have hrest : parse_rss_go attempt now (start + 1) n = ([], List.replicate n 2) :=
      ih (start + 1) (fun i hi1 hi2 => h i (by omega) (by omega))
    simp [parse_rss_go, h0, hrest, List.replicate_succ]

lemma parse_rss_go_sleeps (attempt : Nat → Except Unit ParsedFeed) (now : Nat) :
    ∀ fuel start, (parse_rss_go attempt now start fuel).2.length ≤ fuel ∧
      ∀ d ∈ (parse_rss_go attempt now start fuel).2, d = 2 := by
  intro fuel
  induction fuel with
  | zero => intro start; exact ⟨Nat.le_refl _, by simp [parse_rss_go]⟩
  | succ n ih =>
    intro start
    unfold parse_rss_go
    cases hA : attempt start with
    | ok feed => exact ⟨Nat.zero_le _, by simp⟩
    | error e =>
      obtain ⟨hlen, hmem⟩ := ih (start + 1)
      refine ⟨by simpa using Nat.succ_le_succ hlen, ?_⟩
      intro d hd
      rcases List.mem_cons.mp hd with h2 | h2
      · exact h2
      · exact hmem d h2

/-- C7: `parse_rss` tries the parse up to `retries` times (3 by default),
sleeps a fixed 2 time units after each failed attempt, and when every
attempt fails it returns the empty entry list; the sleep log of a default
call never exceeds 3 entries and holds only the fixed delay 2; no failure
escapes to the caller (the model is a total function). -/
theorem parse_rss_retry_exhaustion (attempt g : Nat → Except Unit ParsedFeed)
    (now retries : Nat)
    (h : ∀ i, i < retries → attempt i = Except.error ()) :
    parse_rss attempt now retries = ([], List.replicate retries 2)
    ∧ (parse_rss g now).2.length ≤ 3
    ∧ ∀ d ∈ (parse_rss g now).2, d = 2 := by
  refine ⟨?_, (parse_rss_go_sleeps g now 3 0).1, (parse_rss_go_sleeps g now 3 0).2⟩
  exact parse_rss_go_all_fail attempt now retries 0 (fun i hi1 hi2 => h i (by omega))

/-- Concrete instance of C7: three failing attempts produce no entries and
exactly three fixed sleeps of 2. -/
theorem parse_rss_retry_exhaustion_witness :
    parse_rss (fun i => Except.error ()) 0 3 = ([], List.replicate 3 2) :=
  (parse_rss_retry_exhaustion (fun i => Except.error ()) (fun i => Except.error ())
    0 3 (fun i hi => rfl)).1

end GetRSS
